import Mathlib

/-! Shallow embedding of the SAMples repository (src/SAMple/baer.py,
src/coalpick/cnn.py, src/010_simple_example.py).  A pick or a waveform
sample that the code stores as NaN is modelled as `none : Option _`;
known values are `some`.  Machine floats are modelled as real (or, where
the statement is arithmetic-free, an arbitrary ordered field) numbers. -/

namespace SAMples

/-- Index set of rows where both the predicted and the reference pick are
known; embeds `both_inds = np.nonzero(~np.isnan(pred) & ~np.isnan(target))[0]`
of `loss_fn` in src/SAMple/baer.py. -/
def both_inds {α : Type} (pred target : List (Option α)) : List ℕ :=
  (List.range pred.length).filter
    (fun i => (pred.getD i none).isSome && (target.getD i none).isSome)

/-- Index set of rows where only the reference (manual) pick is known;
embeds `man_inds = np.nonzero(np.isnan(pred) & ~np.isnan(target))[0]`. -/
def man_inds {α : Type} (pred target : List (Option α)) : List ℕ :=
  (List.range pred.length).filter
    (fun i => !(pred.getD i none).isSome && (target.getD i none).isSome)

/-- Index set of rows where only the predicted (baer) pick is known;
embeds `baer_inds = np.nonzero(~np.isnan(pred) & np.isnan(target))[0]`. -/
def baer_inds {α : Type} (pred target : List (Option α)) : List ℕ :=
  (List.range pred.length).filter
    (fun i => (pred.getD i none).isSome && !(target.getD i none).isSome)

/-- Index set of rows where neither pick is known; embeds
`neither_inds = np.nonzero(np.isnan(pred) & np.isnan(target))[0]`. -/
def neither_inds {α : Type} (pred target : List (Option α)) : List ℕ :=
  (List.range pred.length).filter
    (fun i => !(pred.getD i none).isSome && !(target.getD i none).isSome)

/-- Per-row Gaussian term of `loss_fn`: the code computes
`np.exp(-(((pred - target / sr)) ** 2 / (2 * uncert ** 2)))` where
`uncert` has already been replaced by `uncert / sr`.  Note that the code
divides only `target` by `sr`, not the difference. -/
noncomputable def both_term (sr u p t : ℝ) : ℝ :=
  Real.exp (-((p - t / sr) ^ 2 / (2 * u ^ 2)))

/-- Numerator of `loss_fn`: `both_loss + man_loss + model_loss + neither_loss`
with `man_loss = 0 * len(man_inds)`, `model_loss = (1/5)**2 * len(baer_inds)`
and `neither_loss = (1/4) * len(neither_inds)`. -/
noncomputable def scorer_top (pred target : List (Option ℝ)) (sr u : ℝ) : ℝ :=
  ((both_inds pred target).map
      (fun i => both_term sr u ((pred.getD i none).getD 0) ((target.getD i none).getD 0))).sum
    + 0 * ((man_inds pred target).length : ℝ)
    + (1 / 5) ^ 2 * ((baer_inds pred target).length : ℝ)
    + (1 / 4) * ((neither_inds pred target).length : ℝ)

/-- Denominator of `loss_fn`:
`0.25 * (len(baer_inds) + len(neither_inds)) + (len(both_inds) + len(man_inds))`. -/
noncomputable def scorer_denom (pred target : List (Option ℝ)) : ℝ :=
  0.25 * (((baer_inds pred target).length : ℝ) + ((neither_inds pred target).length : ℝ))
    + (((both_inds pred target).length : ℝ) + ((man_inds pred target).length : ℝ))

/-- Embeds `loss_fn(pred, target, sr, uncert=30)` of src/SAMple/baer.py.
The code first rebinds `uncert = uncert / sr`, returns the constant `100`
when the denominator is zero, and otherwise returns `1 / fitness`.  In
Python `1 / fitness` raises `ZeroDivisionError` when `fitness == 0`, so
that branch is modelled as `none`. -/
noncomputable def loss_fn (pred target : List (Option ℝ)) (sr uncert : ℝ) : Option ℝ :=
  if scorer_denom pred target = 0 then some 100
  else if scorer_top pred target sr (uncert / sr) / scorer_denom pred target = 0 then none
  else some (1 / (scorer_top pred target sr (uncert / sr) / scorer_denom pred target))

/-- Embeds the inner `_set_trainable_layers(model, layers_to_train)` of
`fit` in src/coalpick/cnn.py, acting on the list of per-layer `trainable`
flags.  `none` is Python `None` (no change); `Sum.inl k` is an integer
argument, turned into the boolean list
`[x >= (num_layers - layers_to_train) for x in range(num_layers)]`;
`Sum.inr bs` is an explicit boolean list, assigned positionally by
`zip(model.layers, layers_to_train)` (extra layers keep their flag,
extra booleans are ignored). -/
def set_trainable_layers (flags : List Bool) (ltt : Option (ℤ ⊕ List Bool)) : List Bool :=
  match ltt with
  | none => flags
  | some (Sum.inl k) =>
      (List.range flags.length).map (fun x : ℕ => decide (((flags.length : ℤ) - k) ≤ (x : ℤ)))
  | some (Sum.inr bs) => bs.take flags.length ++ flags.drop bs.length

/-- Effect of `fit` (src/coalpick/cnn.py) on the per-layer `trainable`
flags: it saves `old_layer_trainability`, applies
`_set_trainable_layers(model, layers_to_train)`, trains, then applies
`_set_trainable_layers(model, old_layer_trainability)` on the normal
return path.  Training itself does not touch the flags. -/
def fit_trainability (flags : List Bool) (ltt : Option (ℤ ⊕ List Bool)) : List Bool :=
  set_trainable_layers (set_trainable_layers flags ltt) (some (Sum.inr flags))

theorem set_trainable_layers_length (flags : List Bool) (ltt : Option (ℤ ⊕ List Bool)) :
    (set_trainable_layers flags ltt).length = flags.length := by
  match ltt with
  | none => rfl
  | some (Sum.inl k) => simp [set_trainable_layers]
  | some (Sum.inr bs) =>
      simp only [set_trainable_layers, List.length_append, List.length_take, List.length_drop]
      omega

/-- C10: whatever value of layers_to_train is passed to `fit` (None, an
integer, or an explicit boolean list), after `fit` returns every layer's
trainable flag equals the value it had before the call. -/
theorem fit_restores_trainability (flags : List Bool) (ltt : Option (ℤ ⊕ List Bool)) :
    fit_trainability flags ltt = flags := by
  have hlen : (set_trainable_layers flags ltt).length = flags.length :=
    set_trainable_layers_length flags ltt
  show List.take (set_trainable_layers flags ltt).length flags
      ++ List.drop flags.length (set_trainable_layers flags ltt) = flags
  rw [hlen, List.take_length, ← hlen, List.drop_length, List.append_nil]

/-- C5: for equal-length predicted and reference pick vectors, the four
index sets computed by `loss_fn` are mutually exclusive and exhaustive:
every row index belongs to exactly one of them. -/
theorem outcome_categories_partition {α : Type} (pred target : List (Option α)) (i : ℕ)
    (hlen : target.length = pred.length) (hi : i < pred.length) :
    (i ∈ both_inds pred target ∨ i ∈ man_inds pred target ∨
      i ∈ baer_inds pred target ∨ i ∈ neither_inds pred target)
    ∧ (i ∈ both_inds pred target →
        i ∉ man_inds pred target ∧ i ∉ baer_inds pred target ∧ i ∉ neither_inds pred target)
    ∧ (i ∈ man_inds pred target →
        i ∉ baer_inds pred target ∧ i ∉ neither_inds pred target)
    ∧ (i ∈ baer_inds pred target → i ∉ neither_inds pred target) := by
  simp only [both_inds, man_inds, baer_inds, neither_inds, List.mem_filter, List.mem_range,
    Bool.and_eq_true, Bool.not_eq_true', decide_eq_true_eq]
  cases hp : (pred.getD i none).isSome <;> cases ht : (target.getD i none).isSome <;>
    simp [hp, ht, hi]

/-- Concrete instance of the partition theorem: a one-row batch with a
known predicted pick and an unknown reference pick. -/
theorem outcome_categories_partition_witness :
    (([ (none : Option ℕ) ] : List (Option ℕ)).length = [some 1].length ∧ 0 < [some 1].length)
    ∧ ((0 ∈ both_inds [some 1] [(none : Option ℕ)] ∨ 0 ∈ man_inds [some 1] [none] ∨
        0 ∈ baer_inds [some 1] [none] ∨ 0 ∈ neither_inds [some 1] [none])
      ∧ (0 ∈ both_inds [some 1] [(none : Option ℕ)] →
          0 ∉ man_inds [some 1] [none] ∧ 0 ∉ baer_inds [some 1] [none] ∧
            0 ∉ neither_inds [some 1] [none])
      ∧ (0 ∈ man_inds [some 1] [(none : Option ℕ)] →
          0 ∉ baer_inds [some 1] [none] ∧ 0 ∉ neither_inds [some 1] [none])
      ∧ (0 ∈ baer_inds [some 1] [(none : Option ℕ)] → 0 ∉ neither_inds [some 1] [none])) :=
  ⟨⟨by decide, by decide⟩,
    outcome_categories_partition [some 1] [none] 0 (by decide) (by decide)⟩

theorem both_inds_single (p t : Option ℝ) :
    both_inds [p] [t] = if p.isSome && t.isSome then [0] else [] := by
  cases p <;> cases t <;> rfl

theorem scorer_denom_single_both (p t : ℝ) : scorer_denom [some p] [some t] = 1 := by
  have hb : both_inds [some p] [some t] = [0] := rfl
  have hm : man_inds [some p] [some t] = [] := rfl
  have hba : baer_inds [some p] [some t] = [] := rfl
  have hn : neither_inds [some p] [some t] = [] := rfl
  rw [scorer_denom, hb, hm, hba, hn]
  norm_num

/-- Evaluation of `loss_fn` on a one-row batch where both picks are known:
the denominator is `1` and the returned loss is the reciprocal of the
single Gaussian term. -/
theorem loss_fn_single_both (p t sr uncert : ℝ) :
    loss_fn [some p] [some t] sr uncert = some (1 / both_term sr (uncert / sr) p t) := by
  have hb : both_inds [some p] [some t] = [0] := rfl
  have hm : man_inds [some p] [some t] = [] := rfl
  have hba : baer_inds [some p] [some t] = [] := rfl
  have hn : neither_inds [some p] [some t] = [] := rfl
  have hd : scorer_denom [some p] [some t] = 1 := scorer_denom_single_both p t
  have ht : scorer_top [some p] [some t] sr (uncert / sr) =
      both_term sr (uncert / sr) p t := by
    rw [scorer_top, hb, hm, hba, hn]
    simp
  rw [loss_fn, hd, ht, if_neg one_ne_zero, div_one,
    if_neg (by simpa [both_term] using Real.exp_ne_zero (-((p - t / sr) ^ 2 / (2 * (uncert / sr) ^ 2))))]

/-- C1 (code bug evaluation): the code divides only the reference pick by
the sampling rate, so an exact-match Both row with pick 50 at sampling
rate 100 does NOT contribute 1 and the loss is not 1; instead the loss is
1 exactly when the predicted pick equals the reference pick divided by
the sampling rate. -/
theorem loss_fn_mixed_units_eval :
    loss_fn [some 50] [some 50] 100 30 ≠ some 1 ∧
      loss_fn [some (1 / 2)] [some 50] 100 30 = some 1 := by
  constructor
  · rw [loss_fn_single_both]
    intro h
    rw [Option.some_inj] at h
    have hbt : both_term 100 (30 / 100) 50 50 = 1 := by
      have hne : both_term 100 (30 / 100) 50 50 ≠ 0 := by
        simpa [both_term] using Real.exp_ne_zero _
      field_simp at h
      linarith
    rw [both_term, Real.exp_eq_one_iff] at hbt
    norm_num at hbt
  · rw [loss_fn_single_both]
    have hbt : both_term 100 (30 / 100) (1 / 2) 50 = 1 := by
      rw [both_term]
      norm_num
    rw [hbt]
    norm_num

/-- C2 (code bug evaluation): shifting both picks of a Both-only batch by
the same constant changes the returned loss, because the code computes
`pred - target / sr` rather than `(pred - target) / sr`.  At sampling
rate 2, the batch (0, 0) scores loss 1 but the shifted batch (2, 2) does
not. -/
theorem loss_fn_shift_eval :
    loss_fn [some 2] [some 2] 2 30 ≠ loss_fn [some 0] [some 0] 2 30 := by
  rw [loss_fn_single_both, loss_fn_single_both]
  have h0 : both_term 2 (30 / 2) 0 0 = 1 := by
    rw [both_term]
    norm_num
  rw [h0]
  intro h
  rw [Option.some_inj] at h
  have hne : both_term 2 (30 / 2) 2 2 ≠ 0 := by
    simpa [both_term] using Real.exp_ne_zero _
  have hbt : both_term 2 (30 / 2) 2 2 = 1 := by
    field_simp at h
    linarith
  rw [both_term, Real.exp_eq_one_iff] at hbt
  norm_num at hbt

/-- C3: whenever the category-weighted denominator is exactly zero,
`loss_fn` returns the documented constant 100 instead of dividing. -/
theorem loss_fn_zero_denominator (pred target : List (Option ℝ)) (sr uncert : ℝ)
    (hsr : sr ≠ 0) (h : scorer_denom pred target = 0) :
    loss_fn pred target sr uncert = some 100 := by
  rw [loss_fn, if_pos h]

/-- Concrete instance of the zero-denominator fallback: the empty batch. -/
theorem loss_fn_zero_denominator_witness :
    ((1 : ℝ) ≠ 0) ∧ scorer_denom [] [] = 0 ∧ loss_fn [] [] 1 30 = some 100 := by
  have hd : scorer_denom [] [] = 0 := by
    have hb : both_inds ([] : List (Option ℝ)) [] = [] := rfl
    have hm : man_inds ([] : List (Option ℝ)) [] = [] := rfl
    have hba : baer_inds ([] : List (Option ℝ)) [] = [] := rfl
    have hn : neither_inds ([] : List (Option ℝ)) [] = [] := rfl
    rw [scorer_denom, hb, hm, hba, hn]
    norm_num
  exact ⟨one_ne_zero, hd, loss_fn_zero_denominator [] [] 1 30 one_ne_zero hd⟩

/-- C4 counterexample: a batch whose single row is ReferenceOnly has a
nonzero denominator, yet `loss_fn` does not return a value: the numerator
is zero, so the final `1 / fitness` division raises in Python (modelled
as `none`). -/
theorem loss_fn_all_reference_only_none :
    scorer_denom [none] [some (5 : ℝ)] ≠ 0 ∧ loss_fn [none] [some 5] 1 30 = none := by
  have hb : both_inds [(none : Option ℝ)] [some 5] = [] := rfl
  have hm : man_inds [(none : Option ℝ)] [some 5] = [0] := rfl
  have hba : baer_inds [(none : Option ℝ)] [some 5] = [] := rfl
  have hn : neither_inds [(none : Option ℝ)] [some 5] = [] := rfl
  have hd : scorer_denom [none] [some (5 : ℝ)] = 1 := by
    rw [scorer_denom, hb, hm, hba, hn]
    norm_num
  have ht : scorer_top [none] [some (5 : ℝ)] 1 (30 / 1) = 0 := by
    rw [scorer_top, hb, hm, hba, hn]
    simp
  refine ⟨by rw [hd]; norm_num, ?_⟩
  rw [loss_fn, if_neg (by rw [hd]; norm_num), if_pos (by rw [ht, hd]; norm_num)]

theorem scorer_denom_nonneg (pred target : List (Option ℝ)) :
    0 ≤ scorer_denom pred target := by
  rw [scorer_denom]
  positivity

theorem scorer_top_nonneg (pred target : List (Option ℝ)) (sr u : ℝ) :
    0 ≤ scorer_top pred target sr u := by
  rw [scorer_top]
  have h1 : 0 ≤ ((both_inds pred target).map
      (fun i => both_term sr u ((pred.getD i none).getD 0) ((target.getD i none).getD 0))).sum :=
    List.sum_nonneg (by
      intro x hx
      rw [List.mem_map] at hx
      obtain ⟨i, _, rfl⟩ := hx
      exact (Real.exp_pos _).le)
  positivity

/-- C4 (amended): whenever the denominator is nonzero AND at least one
row is in a category with a positive contribution (Both, PredictedOnly or
Neither), `loss_fn` returns a defined value.  (A batch of only
ReferenceOnly rows is the excluded case refuted above.) -/
theorem loss_fn_defined_of_contributing_row (pred target : List (Option ℝ)) (sr uncert : ℝ)
    (hsr : sr ≠ 0) (hden : scorer_denom pred target ≠ 0)
    (hrow : both_inds pred target ≠ [] ∨ baer_inds pred target ≠ [] ∨
      neither_inds pred target ≠ []) :
    (loss_fn pred target sr uncert).isSome := by
  have hdpos : 0 < scorer_denom pred target :=
    lt_of_le_of_ne (scorer_denom_nonneg pred target) (Ne.symm hden)
  have htop : 0 < scorer_top pred target sr (uncert / sr) := by
    rw [scorer_top]
    have hsum : 0 ≤ ((both_inds pred target).map
        (fun i => both_term sr (uncert / sr) ((pred.getD i none).getD 0)
          ((target.getD i none).getD 0))).sum :=
      List.sum_nonneg (by
        intro x hx
        rw [List.mem_map] at hx
        obtain ⟨i, _, rfl⟩ := hx
        exact (Real.exp_pos _).le)
    rcases hrow with hB | hP | hN
    · have hpos : 0 < ((both_inds pred target).map
          (fun i => both_term sr (uncert / sr) ((pred.getD i none).getD 0)
            ((target.getD i none).getD 0))).sum :=
        List.sum_pos _ (by
          intro x hx
          rw [List.mem_map] at hx
          obtain ⟨i, _, rfl⟩ := hx
          exact Real.exp_pos _) (by simpa using hB)
      have h2 : (0 : ℝ) ≤ (1 / 5) ^ 2 * ((baer_inds pred target).length : ℝ) := by positivity
      have h3 : (0 : ℝ) ≤ (1 / 4) * ((neither_inds pred target).length : ℝ) := by positivity
      nlinarith
    · have hlen : 0 < ((baer_inds pred target).length : ℝ) := by
        have := List.length_pos.mpr hP
        exact_mod_cast this
      have h3 : (0 : ℝ) ≤ (1 / 4) * ((neither_inds pred target).length : ℝ) := by positivity
      nlinarith
    · have hlen : 0 < ((neither_inds pred target).length : ℝ) := by
        have := List.length_pos.mpr hN
        exact_mod_cast this
      have h2 : (0 : ℝ) ≤ (1 / 5) ^ 2 * ((baer_inds pred target).length : ℝ) := by positivity
      nlinarith
  have hfit : scorer_top pred target sr (uncert / sr) / scorer_denom pred target ≠ 0 :=
    ne_of_gt (div_pos htop hdpos)
  rw [loss_fn, if_neg hden, if_neg hfit]
  rfl

/-- Concrete instance of the amended C4 statement: a single Both row. -/
theorem loss_fn_defined_of_contributing_row_witness :
    ((1 : ℝ) ≠ 0) ∧ scorer_denom [some (0 : ℝ)] [some 0] ≠ 0 ∧
      (both_inds [some (0 : ℝ)] [some 0] ≠ [] ∨ baer_inds [some (0 : ℝ)] [some 0] ≠ [] ∨
        neither_inds [some (0 : ℝ)] [some 0] ≠ []) ∧
      (loss_fn [some 0] [some 0] 1 30).isSome := by
  have hden : scorer_denom [some (0 : ℝ)] [some 0] ≠ 0 := by
    rw [scorer_denom_single_both]
    norm_num
  have hrow : both_inds [some (0 : ℝ)] [some 0] ≠ [] ∨
      baer_inds [some (0 : ℝ)] [some 0] ≠ [] ∨
      neither_inds [some (0 : ℝ)] [some 0] ≠ [] := by
    left
    have : both_inds [some (0 : ℝ)] [some 0] = [0] := rfl
    rw [this]
    simp
  exact ⟨one_ne_zero, hden, hrow,
    loss_fn_defined_of_contributing_row [some 0] [some 0] 1 30 one_ne_zero hden hrow⟩

/-- True when a row contains the NaN sentinel in any entry; embeds the
per-row value of `np.isnan(X).any(axis=1)` in `predict`
(src/coalpick/cnn.py). -/
def hasNan {α : Type} (r : List (Option α)) : Bool :=
  r.any (fun o => o.isNone)

/-- Embeds the `fill=True` branch of `_threeify` in src/coalpick/cnn.py:
if the batch length is a multiple of 3 it is returned unchanged;
otherwise `3 - len(X) % 3` rows of NaN (with the row shape of `X`) are
appended. -/
def threeify_fill {α : Type} (X : List (List (Option α))) : List (List (Option α)) :=
  if X.length % 3 = 0 then X
  else X ++ List.replicate (3 - X.length % 3) (List.replicate (X.headD []).length none)

/-- Modelled from the spec: `normalize` lives in coalpick/core.py, which
is not under src/.  Spec section 4.1 (Normalizer): each window is
independently rescaled (here to unit peak amplitude), deterministic and
side-effect-free; entries holding the unknown sentinel propagate it.
`o_peak` is the peak absolute amplitude of the known entries. -/
def o_peak {α : Type} [LinearOrderedField α] (r : List (Option α)) : α :=
  (r.filterMap id).foldr (fun x m => max |x| m) 0

/-- Modelled from the spec: per-window rescaling step of the Normalizer;
known samples are divided by the window peak, unknown samples stay
unknown. -/
def o_normRow {α : Type} [LinearOrderedField α] (r : List (Option α)) : List (Option α) :=
  r.map (Option.map (fun x => x / o_peak r))

/-- Modelled from the spec: batch form of the Normalizer. -/
def o_normalize {α : Type} [LinearOrderedField α] (X : List (List (Option α))) :
    List (List (Option α)) :=
  X.map o_normRow

/-- Embeds `predict(model, data)` of src/coalpick/cnn.py with the external
neural engine abstracted as a batch-to-batch function (spec section 6
interface).  `_preprocess(data, fill=True)` pads with `_threeify` and
normalizes; then rows whose preprocessed window contains NaN are dropped
from the engine output (`ys[~to_drop[:, 0]][:, 0]`). -/
def cnn_predict {α : Type} [LinearOrderedField α]
    (engine : List (List (Option α)) → List α) (X : List (List (Option α))) : List α :=
  (((engine (o_normalize (threeify_fill X))).zip
      ((o_normalize (threeify_fill X)).map hasNan)).filter (fun p => !p.2)).map Prod.fst

theorem any_isNone_map_option {α β : Type} (f : α → β) (l : List (Option α)) :
    (l.map (Option.map f)).any (fun o => o.isNone) = l.any (fun o => o.isNone) := by
  induction l with
  | nil => rfl
  | cons a l ih => cases a <;> simp [ih]

theorem hasNan_o_normRow {α : Type} [LinearOrderedField α] (r : List (Option α)) :
    hasNan (o_normRow r) = hasNan r := by
  unfold hasNan o_normRow
  exact any_isNone_map_option _ r

theorem o_normRow_replicate_none {α : Type} [LinearOrderedField α] (w : ℕ) :
    o_normRow (List.replicate w (none : Option α)) = List.replicate w none := by
  simp [o_normRow, List.map_replicate]

theorem hasNan_replicate_none {α : Type} (w : ℕ) (hw : 0 < w) :
    hasNan (List.replicate w (none : Option α)) = true := by
  cases w with
  | zero => omega
  | succ k => simp [hasNan, List.replicate_succ]

theorem zip_replicate_false_filter {β : Type} (ys : List β) :
    ((ys.zip (List.replicate ys.length false)).filter (fun p => !p.2)).map Prod.fst = ys := by
  induction ys with
  | nil => rfl
  | cons a l ih => simpa [List.replicate_succ] using ih

theorem zip_replicate_false_filter_of_length {β : Type} (ys : List β) (n : ℕ)
    (h : ys.length = n) :
    ((ys.zip (List.replicate n false)).filter (fun p => !p.2)).map Prod.fst = ys := by
  subst h
  exact zip_replicate_false_filter ys

theorem zip_replicate_true_filter {β : Type} (ys : List β) (k : ℕ) :
    ((ys.zip (List.replicate k true)).filter (fun p => !p.2)) = [] := by
  induction ys generalizing k with
  | nil => simp
  | cons a l ih =>
      cases k with
      | zero => simp
      | succ k => simpa [List.replicate_succ] using ih k

theorem map_hasNan_o_normalize_clean {α : Type} [LinearOrderedField α]
    (X : List (List (Option α))) (hclean : ∀ r ∈ X, hasNan r = false) :
    (o_normalize X).map hasNan = List.replicate X.length false := by
  rw [o_normalize, List.map_map]
  have h : ∀ r ∈ X, (hasNan ∘ o_normRow) r = (fun _ => false) r := by
    intro r hr
    simp [Function.comp, hasNan_o_normRow, hclean r hr]
  rw [List.map_congr_left h, List.map_const']

/-- C6: in fill mode with granularity 3, the padded batch handed to the
engine has the smallest multiple-of-3 length that is at least the input
length, the real rows stay in front in input order, and after the
sentinel rows are filtered from the engine output the returned
predictions are exactly the engine outputs of the first `X.length` rows,
hence `X.length` rows in input order. -/
theorem cnn_fill_mode_conformance {α : Type} [LinearOrderedField α]
    (engine : List (List (Option α)) → List α) (X : List (List (Option α))) (w : ℕ)
    (hw : 0 < w) (hrect : ∀ r ∈ X, r.length = w) (hclean : ∀ r ∈ X, hasNan r = false)
    (heng : ∀ Y, (engine Y).length = Y.length) :
    X.length ≤ (o_normalize (threeify_fill X)).length
    ∧ (o_normalize (threeify_fill X)).length % 3 = 0
    ∧ (o_normalize (threeify_fill X)).length < X.length + 3
    ∧ (threeify_fill X).take X.length = X
    ∧ cnn_predict engine X = (engine (o_normalize (threeify_fill X))).take X.length
    ∧ (cnn_predict engine X).length = X.length := by
  by_cases hmod : X.length % 3 = 0
  · have hfill : threeify_fill X = X := by rw [threeify_fill, if_pos hmod]
    have hlen : (o_normalize (threeify_fill X)).length = X.length := by
      rw [hfill, o_normalize, List.length_map]
    have hys : (engine (o_normalize (threeify_fill X))).length = X.length := by
      rw [heng, hlen]
    have hpred : cnn_predict engine X = engine (o_normalize (threeify_fill X)) := by
      rw [cnn_predict, hfill, map_hasNan_o_normalize_clean X hclean]
      have h1 : X.length = (engine (o_normalize X)).length := by
        rw [heng, o_normalize, List.length_map]
      rw [h1, zip_replicate_false_filter]
    refine ⟨le_of_eq hlen.symm, by rw [hlen]; exact hmod, by omega,
      by rw [hfill]; exact List.take_length X, ?_, ?_⟩
    · rw [hpred, ← hys, List.take_length]
    · rw [hpred, hys]
  · have hne : X ≠ [] := by
      intro h
      rw [h] at hmod
      exact hmod rfl
    obtain ⟨x0, X', rfl⟩ := List.exists_cons_of_ne_nil hne
    have hhead : ((x0 :: X').headD []).length = w := hrect x0 (List.mem_cons_self x0 X')
    set n := (x0 :: X').length with hn
    set k := 3 - n % 3 with hk
    have hfill : threeify_fill (x0 :: X') =
        (x0 :: X') ++ List.replicate k (List.replicate w none) := by
      rw [threeify_fill, if_neg hmod, hhead]
    have hklen : (threeify_fill (x0 :: X')).length = n + k := by
      rw [hfill, List.length_append, List.length_replicate]
    have hlen : (o_normalize (threeify_fill (x0 :: X'))).length = n + k := by
      rw [o_normalize, List.length_map, hklen]
    have hflags : (o_normalize (threeify_fill (x0 :: X'))).map hasNan =
        List.replicate n false ++ List.replicate k true := by
      rw [hfill, o_normalize, List.map_append, List.map_append,
        ← o_normalize, map_hasNan_o_normalize_clean _ hclean, List.map_replicate,
        o_normRow_replicate_none, List.map_replicate, hasNan_replicate_none w hw]
    have hys : (engine (o_normalize (threeify_fill (x0 :: X')))).length = n + k := by
      rw [heng, hlen]
    have hpred : cnn_predict engine (x0 :: X') =
        (engine (o_normalize (threeify_fill (x0 :: X')))).take n := by
      rw [cnn_predict, hflags]
      set ys := engine (o_normalize (threeify_fill (x0 :: X'))) with hysdef
      have hsplit : ys = ys.take n ++ ys.drop n := (List.take_append_drop n ys).symm
      have htn : (ys.take n).length = n := by
        rw [List.length_take, hys]
        omega
      calc ((ys.zip (List.replicate n false ++ List.replicate k true)).filter
              (fun p => !p.2)).map Prod.fst
          = (((ys.take n ++ ys.drop n).zip
              (List.replicate n false ++ List.replicate k true)).filter
              (fun p => !p.2)).map Prod.fst := by rw [← hsplit]
        _ = (((ys.take n).zip (List.replicate n false)
              ++ (ys.drop n).zip (List.replicate k true)).filter
              (fun p => !p.2)).map Prod.fst := by
              rw [List.zip_append (by rw [htn, List.length_replicate])]
        _ = ys.take n := by
              rw [List.filter_append, List.map_append, zip_replicate_true_filter,
                List.map_nil, List.append_nil,
                zip_replicate_false_filter_of_length _ _ htn]
    refine ⟨?_, ?_, ?_, ?_, hpred, ?_⟩
    · rw [hlen]; omega
    · rw [hlen]; omega
    · rw [hlen]; omega
    · rw [hfill, List.take_left]
    · rw [hpred, List.length_take, hys]; omega

/-- Concrete instance of C6: a two-row batch of width-1 windows padded to
three rows, with an engine that returns the row sums of the known
entries. -/
theorem cnn_fill_mode_conformance_witness :
    ((0 : ℕ) < 1
      ∧ (∀ r ∈ [[some (1 : ℚ)], [some 2]], r.length = 1)
      ∧ (∀ r ∈ [[some (1 : ℚ)], [some 2]], hasNan r = false)
      ∧ (∀ Y : List (List (Option ℚ)),
          ((fun Y : List (List (Option ℚ)) => Y.map (fun _ => (0 : ℚ))) Y).length = Y.length))
    ∧ ([[some (1 : ℚ)], [some 2]].length
        ≤ (o_normalize (threeify_fill [[some (1 : ℚ)], [some 2]])).length
      ∧ (o_normalize (threeify_fill [[some (1 : ℚ)], [some 2]])).length % 3 = 0
      ∧ (o_normalize (threeify_fill [[some (1 : ℚ)], [some 2]])).length
          < [[some (1 : ℚ)], [some 2]].length + 3
      ∧ (threeify_fill [[some (1 : ℚ)], [some 2]]).take [[some (1 : ℚ)], [some 2]].length
          = [[some (1 : ℚ)], [some 2]]
      ∧ cnn_predict (fun Y : List (List (Option ℚ)) => Y.map (fun _ => (0 : ℚ))) [[some (1 : ℚ)], [some 2]]
          = ((fun Y : List (List (Option ℚ)) => Y.map (fun _ => (0 : ℚ)))
              (o_normalize (threeify_fill [[some (1 : ℚ)], [some 2]]))).take
              [[some (1 : ℚ)], [some 2]].length
      ∧ (cnn_predict (fun Y : List (List (Option ℚ)) => Y.map (fun _ => (0 : ℚ))) [[some (1 : ℚ)], [some 2]]).length
          = [[some (1 : ℚ)], [some 2]].length) :=
  ⟨⟨by decide, by decide, by decide, fun Y => by exact List.length_map _ _⟩,
    cnn_fill_mode_conformance (fun Y : List (List (Option ℚ)) => Y.map (fun _ => (0 : ℚ)))
      [[some 1], [some 2]] 1
      (by decide) (by decide) (by decide) (fun Y => by exact List.length_map _ _)⟩

/-- The 7-field parameter vector of the baer picker, in the order of
`DEFAULT_BOUNDS` and of the tuple unpacking in `_pick`
(src/SAMple/baer.py). -/
structure BaerParams (α : Type) where
  tdownmax : α
  tupevent : α
  thr1 : α
  thr2 : α
  preset_len : α
  p_dur : α
  offset_constant : α

/-- Modelled from the spec: `normalize` of SAMple/prep_utils.py is not
under src/.  Spec section 4.1 (Normalizer): each window is independently
rescaled (here to unit peak amplitude), deterministic, side-effect-free. -/
def peak {α : Type} [LinearOrderedField α] (r : List α) : α :=
  r.foldr (fun x m => max |x| m) 0

/-- Modelled from the spec: per-window rescaling step of the Normalizer
for plain (NaN-free) windows. -/
def normRow {α : Type} [LinearOrderedField α] (r : List α) : List α :=
  r.map (fun x => x / peak r)

/-- Modelled from the spec: batch form of the Normalizer for plain rows. -/
def normalizeB {α : Type} [LinearOrderedField α] (X : List (List α)) : List (List α) :=
  X.map normRow

/-- Embeds `_pick(x, params)` of src/SAMple/baer.py.  The external obspy
detector `pk_baer` is abstracted as a function from the window and the
six detector parameters to the integer index it returns; the code adds
`offset_constant` to that index unconditionally and returns the sum. -/
def _pick {α : Type} [LinearOrderedField α]
    (pk : List α → α × α × α × α × α × α → ℤ) (x : List α) (p : BaerParams α) : α :=
  ((pk x (p.tdownmax, p.tupevent, p.thr1, p.thr2, p.preset_len, p.p_dur) : ℤ) : α)
    + p.offset_constant

/-- Embeds `predict(params, data)` of src/SAMple/baer.py:
`X = normalize(data)` then `np.apply_along_axis(_pick, 1, X, params=params)`,
i.e. `_pick` applied to each row independently with the one shared
parameter vector.  Each entry is wrapped in `some` because `_pick`
returns an integer index plus `offset_constant`, always a number and
never the NaN sentinel. -/
def baer_predict {α : Type} [LinearOrderedField α]
    (pk : List α → α × α × α × α × α × α → ℤ) (p : BaerParams α)
    (data : List (List α)) : List (Option α) :=
  (normalizeB data).map (fun row => some ( _pick pk row p))

/-- The suffix ".json" reversed, as characters. -/
def jsonSuffixRev : List Char := ['n', 'o', 's', 'j', '.']

/-- Models `Path(...).suffix == ".json"`: the path, as a character list,
ends in ".json". -/
def hasJsonSuffix (path : List Char) : Bool :=
  path.reverse.take 5 == jsonSuffixRev

/-- The JSON text that `json.dump` writes for the 7-field parameter dict
of `save_params` (src/SAMple/baer.py). -/
def dump (p : BaerParams ℚ) : String :=
  "\x7b\"tdownmax\": " ++ toString p.tdownmax
    ++ ", \"tupevent\": " ++ toString p.tupevent
    ++ ", \"thr1\": " ++ toString p.thr1
    ++ ", \"thr2\": " ++ toString p.thr2
    ++ ", \"preset_len\": " ++ toString p.preset_len
    ++ ", \"p_dur\": " ++ toString p.p_dur
    ++ ", \"offset_constant\": " ++ toString p.offset_constant
    ++ "\x7d"

/-- Embeds `save_params(params, save_path)` of src/SAMple/baer.py: assert
the ".json" suffix, then write `json.dump(params)`.  The value is the
written file content; `none` models the failed assertion.  Note the
source line `def save_params(params: dict, save_path: Path)` is missing
its trailing colon, a Python SyntaxError; this embeds the evident intent
of the function body. -/
def save_params (p : BaerParams ℚ) (path : List Char) : Option String :=
  if hasJsonSuffix path then some (dump p) else none

/-- Embeds `load_params(params_path)` of src/SAMple/baer.py: assert the
".json" suffix, open the file and return `fi.read()` unchanged.  The raw
file bytes are returned; `json.loads` is never applied. -/
def load_params (path : List Char) (fileContent : String) : Option String :=
  if hasJsonSuffix path then some fileContent else none

/-- A labeled dataset row for the Windowed Data Sampler: the stored
waveform trace and the reference pick position inside it. -/
structure SampleRow (α : Type) where
  trace : List α
  pick : ℤ

/-- Modelled from the spec: the i-th draw of the sampler's random stream,
reduced to an integer offset in the documented symmetric range
[-50, 50] (spec section 4.2). -/
def drawOffset (g : ℕ → ℤ) (i : ℕ) : ℤ :=
  g i % 101 - 50

/-- Modelled from the spec: window re-extraction, reading `wlen` samples
of the trace starting at a signed sample index (missing samples read 0). -/
def extractAt {α : Type} [Zero α] (trace : List α) (start : ℤ) (wlen : ℕ) : List α :=
  (List.range wlen).map (fun j => trace.getD (start + (j : ℤ)).toNat 0)

/-- Modelled from the spec: one perturbed sample of the Windowed Data
Sampler; the window is re-extracted so the true pick sits at position
`center - o` inside the window, and that position becomes the label. -/
def shuffleRow {α : Type} [Zero α] (wlen center : ℕ) (r : SampleRow α) (o : ℤ) :
    List α × ℤ :=
  (extractAt r.trace (r.pick - (center : ℤ) + o) wlen, (center : ℤ) - o)

/-- Modelled from the spec: `shuffle_data` of coalpick/core.py is not
under src/ (only its call sites in src/010_simple_example.py are).  Spec
section 4.2 (Windowed Data Sampler): every original row is perturbed
`rep` times, each time with an independent draw from the random stream
`g`; with `rep = 1` each row is perturbed once. -/
def shuffle_data {α : Type} [Zero α] (wlen center : ℕ) (rows : List (SampleRow α))
    (rep : ℕ) (g : ℕ → ℤ) : List (List α × ℤ) :=
  (List.range (rows.length * rep)).map
    (fun i => shuffleRow wlen center (rows.getD (i / rep) ⟨[], 0⟩) (drawOffset g i))

/-- C7 (amended) : `predict` of the baer picker is rowwise: the output
has one entry per input row, and entry `i` is `some` of `_pick` applied
to the normalized row `i` with the shared parameter vector — a KNOWN
pick for every row, whatever the external detector returns. -/
theorem baer_predict_rowwise {α : Type} [LinearOrderedField α]
    (pk : List α → α × α × α × α × α × α → ℤ) (p : BaerParams α)
    (data : List (List α)) (i : ℕ) (hi : i < data.length) :
    (baer_predict pk p data).length = data.length
      ∧ (baer_predict pk p data).getD i none
          = some ( _pick pk (normRow (data.getD i [])) p) := by
  constructor
  · rw [baer_predict, List.length_map, normalizeB, List.length_map]
  · rw [baer_predict, normalizeB, List.map_map]
    rw [List.getD_eq_getElem?_getD, List.getElem?_map, List.getElem?_eq_getElem hi,
      List.getD_eq_getElem?_getD, List.getElem?_eq_getElem hi]
    rfl

/-- Concrete instance of the amended C7 statement: two windows, a
detector stub, row 1. -/
theorem baer_predict_rowwise_witness :
    (1 < ([[(2 : ℚ)], [3]] : List (List ℚ)).length)
      ∧ ((baer_predict (fun _ _ => (0 : ℤ)) (⟨0, 0, 0, 0, 0, 0, 7⟩ : BaerParams ℚ)
            [[2], [3]]).length = ([[(2 : ℚ)], [3]] : List (List ℚ)).length
        ∧ (baer_predict (fun _ _ => (0 : ℤ)) (⟨0, 0, 0, 0, 0, 0, 7⟩ : BaerParams ℚ)
            [[2], [3]]).getD 1 none
          = some ( _pick (fun _ _ => (0 : ℤ))
              (normRow (([[(2 : ℚ)], [3]] : List (List ℚ)).getD 1 [])) ⟨0, 0, 0, 0, 0, 0, 7⟩)) :=
  ⟨by decide,
    baer_predict_rowwise (fun _ _ => (0 : ℤ)) ⟨0, 0, 0, 0, 0, 0, 7⟩ [[2], [3]] 1 (by decide)⟩

/-- C7 counterexample: when the external detector reports no trigger
(obspy pk_baer then returns index 0 without a pick), `_pick` still
returns `0 + offset_constant`, so the row's entry is a KNOWN pick, not
the unknown (NaN) sentinel the claim requires. -/
theorem baer_predict_known_on_no_trigger :
    baer_predict (fun _ _ => (0 : ℤ)) (⟨0, 0, 0, 0, 0, 0, 7⟩ : BaerParams ℚ) [[1]]
        = [some 7]
      ∧ [some (7 : ℚ)] ≠ [(none : Option ℚ)] := by
  constructor
  · show [some (((0 : ℤ) : ℚ) + 7)] = [some 7]
    norm_num
  · decide

/-- C8 (code bug evaluation): saving the 7-field parameter vector writes
the JSON text, and loading it back returns that raw text itself (no
parsing), not the 7 scalar values. -/
theorem params_roundtrip_unparsed :
    save_params ⟨1, 2, 3, 4, 5, 6, 7⟩ ("params.json".toList)
        = some (dump ⟨1, 2, 3, 4, 5, 6, 7⟩)
      ∧ load_params ("params.json".toList) (dump ⟨1, 2, 3, 4, 5, 6, 7⟩)
        = some (dump ⟨1, 2, 3, 4, 5, 6, 7⟩) := by
  have h : hasJsonSuffix ("params.json".toList) = true := by decide
  rw [save_params, load_params]
  exact ⟨rfl, rfl⟩

/-- C9 (amended): the spec-modelled sampler is a pure function of the
dataset, the repeat count and the explicit random stream; two runs whose
streams agree pointwise produce identical outputs. -/
theorem shuffle_data_deterministic {α : Type} [Zero α] (wlen center : ℕ)
    (rows : List (SampleRow α)) (rep : ℕ) (g1 g2 : ℕ → ℤ) (hg : ∀ i, g1 i = g2 i) :
    shuffle_data wlen center rows rep g1 = shuffle_data wlen center rows rep g2 := by
  have h : g1 = g2 := funext hg
  rw [h]

/-- Concrete instance of the amended C9 statement. -/
theorem shuffle_data_deterministic_witness :
    (∀ i : ℕ, (fun _ : ℕ => (5 : ℤ)) i = (fun _ : ℕ => (5 : ℤ)) i)
      ∧ shuffle_data 1 0 [(⟨[(1 : ℚ)], 0⟩ : SampleRow ℚ)] 1 (fun _ : ℕ => (5 : ℤ))
          = shuffle_data 1 0 [(⟨[(1 : ℚ)], 0⟩ : SampleRow ℚ)] 1 (fun _ : ℕ => (5 : ℤ)) :=
  ⟨fun _ => rfl,
    shuffle_data_deterministic 1 0 [⟨[(1 : ℚ)], 0⟩] 1 _ _ (fun _ => rfl)⟩

/-- C9 counterexample: the sampler output depends on the random stream
it draws from.  The call sites in src/010_simple_example.py pass no seed
or generator to `shuffle_data`, so that stream is hidden global state:
two runs over the same dataset with `repeat=1` but different ambient
stream states give different outputs. -/
theorem shuffle_data_depends_on_hidden_stream :
    shuffle_data 1 0 [(⟨[(1 : ℚ)], 0⟩ : SampleRow ℚ)] 1 (fun _ : ℕ => (0 : ℤ))
      ≠ shuffle_data 1 0 [(⟨[(1 : ℚ)], 0⟩ : SampleRow ℚ)] 1 (fun _ : ℕ => (1 : ℤ)) := by
  decide

end SAMples
